import Mathlib

/-!
Verification of the bulk-structure-fetch / ligand-extraction pipeline
(`prepare_pdb.py`, `prepare_ligand.py`, `utils.py`, `generate_embeddings.py`,
`extract_binding_info.py`) against its natural-language specification.

The Python code is shallowly embedded: pure string processing becomes Lean
functions on `List Char` / `String`; filesystem and network effects become
explicit state (a list of existing paths, a map from paths to parsed
structures) plus an explicit effect trace; exceptions become `Except`.
-/

set_option maxRecDepth 8000

deriving instance DecidableEq for Except

namespace Vnegnn

/-- Embeds `os.path.join(a, b)` for the simple relative-path shapes used by the
pipeline: concatenation with a single separator. -/
def pathJoin (a b : String) : String := a ++ "/" ++ b

/-- Is the first list a prefix of the second? -/
def isPrefChars : List Char → List Char → Bool
  | [], _ => true
  | _ :: _, [] => false
  | a :: as, b :: bs => a == b && isPrefChars as bs

/-- Embeds `s.startswith(pre)`. -/
def strStartsWith (s pre : String) : Bool := isPrefChars pre.data s.data

/-- The whitespace class of Python `str.isspace` / regex `\s` (Unicode
string patterns): ASCII `\t\n\v\f\r` and space, the C1 separators
`\x1c`-`\x1f`, NEL, NBSP, and the Unicode space characters. -/
def isSpaceChar (c : Char) : Bool :=
  let n := c.toNat
  (9 ≤ n && n ≤ 13) || n == 32 || (28 ≤ n && n ≤ 31) || n == 0x85 || n == 0xa0 ||
  n == 0x1680 || (0x2000 ≤ n && n ≤ 0x200a) || n == 0x2028 || n == 0x2029 ||
  n == 0x202f || n == 0x205f || n == 0x3000

/-- Embeds `str.strip()`: drop leading and trailing whitespace characters. -/
def stripChars (l : List Char) : List Char :=
  ((l.dropWhile isSpaceChar).reverse.dropWhile isSpaceChar).reverse

/-- The separator class of `re.split` in `normalize_pdb_tokens`:
`[;,/|\s]+`. -/
def isSepChar (c : Char) : Bool :=
  c == ';' || c == ',' || c == '/' || c == '|' || isSpaceChar c

/-- Worker for `re.split` on a character class with `+`: a maximal run of
separators is one delimiter; fragments at the borders may be empty.
`inSep` records whether the previous character belonged to a separator
run. -/
def splitRunsGo (p : Char → Bool) : List Char → List Char → Bool → List (List Char)
  | [], cur, _ => [cur.reverse]
  | c :: rest, cur, inSep =>
    if p c then
      if inSep then splitRunsGo p rest cur true
      else cur.reverse :: splitRunsGo p rest [] true
    else splitRunsGo p rest (c :: cur) false

/-- Embeds `re.split` on `[;,/|\s]+` as a function on character lists. -/
def splitSeps (l : List Char) : List (List Char) :=
  splitRunsGo isSepChar l [] false

/-- The character class `[A-Za-z0-9]` of the PDB-id regex. -/
def isAlnumAscii (c : Char) : Bool :=
  let n := c.toNat
  (65 ≤ n && n ≤ 90) || (97 ≤ n && n ≤ 122) || (48 ≤ n && n ≤ 57)

/-- Embeds `re.search` of `([A-Za-z0-9]{4})`: the leftmost window of four
consecutive alphanumeric characters, if any. -/
def firstRun4 : List Char → Option (List Char)
  | c1 :: c2 :: c3 :: c4 :: rest =>
    if isAlnumAscii c1 && isAlnumAscii c2 && isAlnumAscii c3 && isAlnumAscii c4 then
      some [c1, c2, c3, c4]
    else firstRun4 (c2 :: c3 :: c4 :: rest)
  | _ => none

/-- ASCII uppercasing of one character, as `str.upper()` acts on the ASCII
range (the only range reaching it here: matched groups are ASCII
alphanumeric, PDB ids are ASCII). -/
def upperChar (c : Char) : Char :=
  if 97 ≤ c.toNat && c.toNat ≤ 122 then Char.ofNat (c.toNat - 32) else c

/-- Embeds `str.upper()` restricted to ASCII input. -/
def pyUpper (s : String) : String := ⟨s.data.map upperChar⟩

/-- Embeds `normalize_pdb_tokens` from `scripts/prepare_pdb.py`: strip the raw
string, split on `[;,/|\s]+`, and for each nonempty stripped fragment
append the upper-cased leftmost run of four alphanumeric characters when
one exists. -/
def normalize_pdb_tokens (s : String) : List String :=
  let parts := splitSeps (stripChars s.data)
  parts.filterMap (fun pRaw =>
    let p := stripChars pRaw
    if p.isEmpty then none
    else (firstRun4 p).map (fun m => String.mk (m.map upperChar)))

example : normalize_pdb_tokens "1abc_A" = ["1ABC"] := by decide
example : normalize_pdb_tokens "1ABC; 2def" = ["1ABC", "2DEF"] := by decide
example : normalize_pdb_tokens "  " = [] := by decide
example : normalize_pdb_tokens "" = [] := by decide
example : normalize_pdb_tokens "ab" = [] := by decide
example : normalize_pdb_tokens "x-1abc/2DEFG" = ["1ABC", "2DEF"] := by decide

/-! ## Fetcher: `download_single` / `prepare_pdb_directory` (scripts/prepare_pdb.py) -/

/-- The environment's answer to one `requests.get`: either a response with a
status code and a byte body, or a transport-level exception
(`requests.RequestException`). -/
inductive HttpResult where
  | response (status : Nat) (content : List Nat) : HttpResult
  | exc : HttpResult
deriving DecidableEq

/-- One observable side effect of `download_single`. -/
inductive Effect where
  | mkdirEff (path : String) : Effect
  | getEff (url : String) : Effect
  | sleepEff (tenthsOfSecond : Nat) : Effect
  | writeEff (path : String) (content : List Nat) : Effect
deriving DecidableEq

/-- Result of `download_single`: the `(pdb_id, status, file_path)` triple the
Python function returns, together with its effect trace. -/
structure DLRes where
  id : String
  status : String
  path : Option String
  effects : List Effect
deriving DecidableEq

/-- The retry loop of `download_single` (`while attempt < max_retries`).
`fuel` is the number of iterations left, so `fuel = max_retries - attempt`
and the loop guard `attempt < max_retries` is `fuel > 0`; `attempt` is the
Python counter, incremented only on a transport exception. `net k` is the
outcome of the request made while the counter equals `k`. The backoff
`time.sleep(1 + attempt * 0.5)` (run after `attempt += 1`) is recorded in
exact tenths of a second: `10 + attempt * 5`. -/
def dlLoop (net : Nat → HttpResult) (url out_pdb id_up : String) :
    Nat → Nat → List Effect → DLRes
  | 0, _, acc => ⟨id_up, "not_found", none, acc.reverse⟩
  | fuel + 1, attempt, acc =>
    match net attempt with
    | .response status content =>
      if status == 200 && !content.isEmpty && content.length > 100 then
        ⟨id_up, "downloaded", some out_pdb,
          (Effect.writeEff out_pdb content :: Effect.getEff url :: acc).reverse⟩
      else
        ⟨id_up, "not_found", none, (Effect.getEff url :: acc).reverse⟩
    | .exc =>
      dlLoop net url out_pdb id_up fuel (attempt + 1)
        (Effect.sleepEff (10 + (attempt + 1) * 5) :: Effect.getEff url :: acc)

/-- Embeds `download_single` from `scripts/prepare_pdb.py`. `fs` is the set of
paths existing on disk (`os.path.exists`); `net` supplies the outcome of
each request attempt. The existence check is on the per-id directory
`out_dir/{ID}`; `os.makedirs` runs before the first request. -/
def download_single (fs : List String) (net : Nat → HttpResult)
    (pdb_id : String) (out_dir : String) (max_retries : Nat) : DLRes :=
  let pdb_id_up := pyUpper pdb_id
  let idDir := pathJoin out_dir pdb_id_up
  if fs.contains idDir then
    ⟨pdb_id_up, "exists", none, []⟩
  else
    let out_pdb := pathJoin idDir "protein.pdb"
    let url := "https://files.rcsb.org/download/" ++ pdb_id_up ++ ".pdb"
    let res := dlLoop net url out_pdb pdb_id_up max_retries 0 []
    { res with effects := Effect.mkdirEff idDir :: res.effects }

/-- Replay the filesystem effects of one download on the set of existing
paths: `mkdir` and a file write both make their path exist. -/
def applyDLEffects (fs : List String) : List Effect → List String
  | [] => fs
  | .mkdirEff p :: rest => applyDLEffects (p :: fs) rest
  | .writeEff p _ :: rest => applyDLEffects (p :: fs) rest
  | .getEff _ :: rest => applyDLEffects fs rest
  | .sleepEff _ :: rest => applyDLEffects fs rest

/-- Lexicographic comparison of strings by character code, the order of
Python `sorted` on `str`. -/
def strLeChars : List Char → List Char → Bool
  | [], _ => true
  | _ :: _, [] => false
  | a :: as, b :: bs =>
    if a.toNat < b.toNat then true
    else if b.toNat < a.toNat then false
    else strLeChars as bs

def strLe (a b : String) : Bool := strLeChars a.data b.data

def insertSorted (x : String) : List String → List String
  | [] => [x]
  | y :: rest => if strLe x y then x :: y :: rest else y :: insertSorted x rest

/-- Embeds `sorted(set(...))` over strings: drop duplicates, then sort. -/
def sortedDedup (l : List String) : List String :=
  (l.dedup).foldr insertSorted []

/-- The per-run worker loop of `prepare_pdb_directory`: one
`download_single` task per normalized id, threading the filesystem (tasks
touch pairwise distinct per-id paths, so the thread-pool run over
deduplicated ids is observably this sequence). `net` gives each id its
schedule of request outcomes. -/
def prepareGo (net : String → Nat → HttpResult) (pdb_dir : String)
    (max_retries : Nat) : List String → List String → List DLRes × List String
  | fs, [] => ([], fs)
  | fs, pid :: rest =>
    let r := download_single fs (net pid) pid pdb_dir max_retries
    let (rs, fs') := prepareGo net pdb_dir max_retries (applyDLEffects fs r.effects) rest
    (r :: rs, fs')

/-- Embeds `prepare_pdb_directory` from `scripts/prepare_pdb.py` with
`clear_existing=False` (the default; no claim exercises the clearing
branch): normalize and deduplicate the raw id strings (`if raw` keeps
truthy, i.e. nonempty, strings), `os.makedirs(pdb_dir)`, then one download
task per id. Returns the per-id results and the final filesystem. -/
def prepare_pdb_directory (fs : List String) (net : String → Nat → HttpResult)
    (pdb_dir : String) (pdb_ids : List String) (max_retries : Nat) :
    List DLRes × List String :=
  let ids := sortedDedup ((pdb_ids.filter (fun raw => !raw.data.isEmpty)).flatMap normalize_pdb_tokens)
  prepareGo net pdb_dir max_retries (pdb_dir :: fs) ids

example :
    (download_single [] (fun _ => .exc) "1abc" "data" 2).effects =
      [Effect.mkdirEff "data/1ABC",
       Effect.getEff "https://files.rcsb.org/download/1ABC.pdb",
       Effect.sleepEff 15,
       Effect.getEff "https://files.rcsb.org/download/1ABC.pdb",
       Effect.sleepEff 20] := by decide

example :
    (download_single ["data/1ABC"] (fun _ => .exc) "1abc" "data" 2) =
      ⟨"1ABC", "exists", none, []⟩ := by decide

example :
    (download_single [] (fun _ => .response 200 (List.replicate 200 7)) "1abc" "data" 3).status =
      "downloaded" := by decide

example :
    (download_single [] (fun _ => .response 200 (List.replicate 50 7)) "1abc" "data" 3) =
      ⟨"1ABC", "not_found", none,
        [Effect.mkdirEff "data/1ABC",
         Effect.getEff "https://files.rcsb.org/download/1ABC.pdb"]⟩ := by decide

/-! ## Extractor: `extract_single_ligand` / `prepare_ligands_from_asd`
(src/prepare_ligand.py) -/

/-- Embeds `str.split(sep)` for a one-character separator: splits at every
occurrence, keeping empty fragments. -/
def splitCharGo (sep : Char) : List Char → List Char → List (List Char)
  | [], cur => [cur.reverse]
  | c :: rest, cur =>
    if c == sep then cur.reverse :: splitCharGo sep rest []
    else splitCharGo sep rest (c :: cur)

/-- Embeds `s.split(";")`. -/
def pySplitSemi (s : String) : List String :=
  (splitCharGo ';' s.data []).map String.mk

/-- Digits-to-number worker for `int()`. -/
def digitsToNatGo : Nat → List Char → Option Nat
  | acc, [] => some acc
  | acc, c :: rest =>
    if c.isDigit then digitsToNatGo (acc * 10 + (c.toNat - 48)) rest
    else none

/-- Python `int(s)` on the forms appearing here: optional surrounding
whitespace, optional sign, then decimal digits; `none` stands for the
`ValueError` Python raises on anything else. -/
def pyToInt (s : String) : Option Int :=
  match stripChars s.data with
  | [] => none
  | '-' :: rest =>
    if rest.isEmpty then none
    else (digitsToNatGo 0 rest).map (fun n => -(n : Int))
  | '+' :: rest =>
    if rest.isEmpty then none
    else (digitsToNatGo 0 rest).map (fun n => (n : Int))
  | rest => (digitsToNatGo 0 rest).map (fun n => (n : Int))

/-- A residue of a parsed Biopython structure, reduced to the two fields
`LigandSelect` inspects: the parent chain id (`residue.get_parent().id`)
and the residue sequence number (`residue.id[1]`). -/
structure Residue where
  chain : String
  seq : Int
deriving DecidableEq

/-- Filesystem as the extractor sees it: the set of existing paths and, for
each structure file, the residue list `PDBParser` would produce from it. -/
structure LigFS where
  files : List String
  content : String → List Residue

/-- Embeds `LigandSelect.accept_residue`: `residue.get_parent().id ==
self.chain_id and residue.id[1] == int(self.residue_id)`. Python `and`
short-circuits, so `int` is evaluated only when the chain matches; `none`
stands for the `ValueError` of a failed `int`. -/
def accept_residue (chain_id residue_id : String) (r : Residue) : Option Bool :=
  if r.chain == chain_id then (pyToInt residue_id).map (fun n => r.seq == n)
  else some false

/-- Embeds `PDBIO.save` with a `LigandSelect`: keep exactly the accepted residues;
`none` if `accept_residue` raises on some residue. -/
def selectResidues (chain_id residue_id : String) : List Residue → Option (List Residue)
  | [] => some []
  | r :: rest =>
    match accept_residue chain_id residue_id r with
    | none => none
    | some b =>
      (selectResidues chain_id residue_id rest).map (fun l => if b then r :: l else l)

/-- One observable side effect of `extract_single_ligand`. -/
inductive ExtractEffect where
  | parseEff (path : String) : ExtractEffect
  | writeLigEff (path : String) (content : List Residue) : ExtractEffect
deriving DecidableEq

/-- Result of `extract_single_ligand`: the list of `(status, path)` pairs
it returns, or the `ValueError` message it raises; plus its effect
trace. -/
structure ExtractRes where
  result : Except String (List (String × String))
  effects : List ExtractEffect
deriving DecidableEq

/-- The `for i, (chain_id, residue_ids) in enumerate(zip(...))` loop body
of `extract_single_ligand`. -/
def extractLoop (fs : LigFS) (protein_dir pdb_file : String) (skip_existing : Bool) :
    List (String × String) → Nat → List (String × String) → List ExtractEffect → ExtractRes
  | [], _, acc, eff => ⟨.ok acc.reverse, eff.reverse⟩
  | (chain_id, residue_id) :: rest, i, acc, eff =>
    let ligand_out_file := pathJoin protein_dir ("ligand_" ++ toString i ++ ".pdb")
    if skip_existing && fs.files.contains ligand_out_file then
      extractLoop fs protein_dir pdb_file skip_existing rest (i + 1)
        (("skipped", ligand_out_file) :: acc) eff
    else
      match selectResidues chain_id residue_id (fs.content pdb_file) with
      | none =>
        ⟨.error ("invalid literal for int with base 10: " ++ residue_id),
          (ExtractEffect.parseEff pdb_file :: eff).reverse⟩
      | some kept =>
        extractLoop fs protein_dir pdb_file skip_existing rest (i + 1)
          (("extracted", ligand_out_file) :: acc)
          (ExtractEffect.writeLigEff ligand_out_file kept ::
            ExtractEffect.parseEff pdb_file :: eff)

/-- Embeds `extract_single_ligand` from `src/prepare_ligand.py`: missing source
file short-circuits to a single `missing` outcome; then the `;`-split
chain and residue lists must have equal length (`ValueError` otherwise);
then one ligand file per positional pair. -/
def extract_single_ligand (fs : LigFS) (pdb_dir pdb_id : String)
    (chain_ids residue_ids : String) (skip_existing : Bool) : ExtractRes :=
  let protein_dir := pathJoin pdb_dir pdb_id
  let pdb_file := pathJoin protein_dir "protein.pdb"
  if !fs.files.contains pdb_file then
    ⟨.ok [("missing", pdb_file)], []⟩
  else
    let chains := pySplitSemi chain_ids
    let resids := pySplitSemi residue_ids
    if chains.length ≠ resids.length then
      ⟨.error ("Number of chain IDs and residue IDs do not match for PDB ID " ++ pdb_id),
        []⟩
    else
      extractLoop fs protein_dir pdb_file skip_existing (chains.zip resids) 0 [] []

/-- One row of the `ligand_info` frame:
`(pdb_id, ligand_chain, ligand_residue)`. -/
structure LigRow where
  pdb_id : String
  ligand_chain : String
  ligand_residue : String

/-- The aggregate state of `prepare_ligands_from_asd`: the outcome counters
and the logged task-boundary errors. -/
structure PrepSummary where
  extracted : Nat
  skipped : Nat
  missing : Nat
  errors : List String
deriving DecidableEq

/-- Tally one task's `(status, path)` list into the counters
(`counts[status] += 1`). -/
def addTally (s : PrepSummary) : List (String × String) → PrepSummary
  | [] => s
  | (st, _) :: rest =>
    addTally
      (if st == "extracted" then { s with extracted := s.extracted + 1 }
       else if st == "skipped" then { s with skipped := s.skipped + 1 }
       else { s with missing := s.missing + 1 })
      rest

/-- Replay an extraction's writes on the filesystem. -/
def applyExtractEffects (fs : LigFS) : List ExtractEffect → LigFS
  | [] => fs
  | .parseEff _ :: rest => applyExtractEffects fs rest
  | .writeLigEff p c :: rest =>
    applyExtractEffects
      { files := p :: fs.files,
        content := fun q => if q = p then c else fs.content q } rest

/-- The worker loop of `prepare_ligands_from_asd`: one
`extract_single_ligand` task per row; a task's exception is caught at the
`future.result()` boundary and logged, an ok result is tallied; the run
always continues with the remaining rows. -/
def prepLigGo (pdb_dir : String) (skip_existing : Bool) :
    LigFS → List LigRow → PrepSummary × LigFS
  | fs, [] => (⟨0, 0, 0, []⟩, fs)
  | fs, row :: rest =>
    let r := extract_single_ligand fs pdb_dir row.pdb_id row.ligand_chain
      row.ligand_residue skip_existing
    let fs' := applyExtractEffects fs r.effects
    let (s, fs'') := prepLigGo pdb_dir skip_existing fs' rest
    match r.result with
    | .error e => ({ s with errors := e :: s.errors }, fs'')
    | .ok results => (addTally s results, fs'')

/-- Embeds `prepare_ligands_from_asd` from `src/prepare_ligand.py` (summary and
final filesystem). -/
def prepare_ligands_from_asd (fs : LigFS) (pdb_dir : String)
    (ligand_info : List LigRow) (skip_existing : Bool) : PrepSummary × LigFS :=
  prepLigGo pdb_dir skip_existing fs ligand_info

example :
    (extract_single_ligand ⟨[], fun _ => []⟩ "data" "1ABC" "A;B" "10" true).result =
      .ok [("missing", "data/1ABC/protein.pdb")] := by decide

example :
    (extract_single_ligand ⟨["data/1ABC/protein.pdb"], fun _ => []⟩
        "data" "1ABC" "A;B" "10" true).result =
      .error "Number of chain IDs and residue IDs do not match for PDB ID 1ABC" := by
  decide

example :
    (extract_single_ligand
        ⟨["data/1ABC/protein.pdb"],
          fun p => if p = "data/1ABC/protein.pdb" then
            [⟨"A", 10⟩, ⟨"B", 20⟩, ⟨"A", 99⟩] else []⟩
        "data" "1ABC" "A;B" "10;20" true).effects =
      [ExtractEffect.parseEff "data/1ABC/protein.pdb",
       ExtractEffect.writeLigEff "data/1ABC/ligand_0.pdb" [⟨"A", 10⟩],
       ExtractEffect.parseEff "data/1ABC/protein.pdb",
       ExtractEffect.writeLigEff "data/1ABC/ligand_1.pdb" [⟨"B", 20⟩]] := by decide

/-! ## Downstream adapters: `all_exist_in_directory` (src/utils.py),
`generate_embeddings`, `extract_binding_info` -/

mutual
/-- One directory entry: a file or a directory with its entries. -/
inductive FTree where
  | file : String → FTree
  | dir : String → FList → FTree
/-- A directory listing. -/
inductive FList where
  | nil : FList
  | cons : FTree → FList → FList
end

def entryName : FTree → String
  | .file n => n
  | .dir n _ => n

def isDirEntry : FTree → Bool
  | .file _ => false
  | .dir _ _ => true

/-- Embeds the check `any(fname.startswith(pre) for fname in os.listdir(dir_path))`:
`os.listdir` names every entry, files and directories alike. -/
def hasPrefEntry (pre : String) : FList → Bool
  | .nil => false
  | .cons e rest => strStartsWith (entryName e) pre || hasPrefEntry pre rest

mutual
/-- The checks `os.walk` performs at and below one directory entry: a
directory must itself list an entry starting with the given string (it is
a subdirectory of its walked parent), and so must every directory below
it. -/
def dirOk (pre : String) : FTree → Bool
  | .file _ => true
  | .dir _ cs => hasPrefEntry pre cs && allOk pre cs
/-- Maps `dirOk` over a listing. -/
def allOk (pre : String) : FList → Bool
  | .nil => true
  | .cons e rest => dirOk pre e && allOk pre rest
end

/-- Embeds `all_exist_in_directory` from `src/utils.py`: walk the whole tree and
require, for every subdirectory of every walked directory, an entry whose
name starts with the given string. `none` is a nonexistent directory
(`os.walk` yields nothing there, so the result is `True`). -/
def all_exist_in_directory (directory : Option FList) (pre : String) : Bool :=
  match directory with
  | none => true
  | some es => allOk pre es

mutual
/-- All directories at or below one entry, as (name, listing) pairs. -/
def dirsBelowT : FTree → List (String × FList)
  | .file _ => []
  | .dir n cs => (n, cs) :: dirsBelowL cs
/-- All directories strictly below a root with this listing. -/
def dirsBelowL : FList → List (String × FList)
  | .nil => []
  | .cons e rest => dirsBelowT e ++ dirsBelowL rest
end

/-- Modelled from the claim wording (for comparison with the code): a file,
not a directory, whose name starts with the given string. -/
def hasPrefFile (pre : String) : FList → Bool
  | .nil => false
  | .cons e rest =>
    (!isDirEntry e && strStartsWith (entryName e) pre) || hasPrefFile pre rest

/-- Worker for `specImmediateAllExist` over the root listing. -/
def specImmAll (pre : String) : FList → Bool
  | .nil => true
  | .cons (.file _) rest => specImmAll pre rest
  | .cons (.dir _ cs) rest => hasPrefFile pre cs && specImmAll pre rest

/-- Modelled from the claim wording of the idempotence guard (for
comparison with the code): every IMMEDIATE subdirectory of the directory
contains at least one FILE whose name starts with the given string. -/
def specImmediateAllExist (directory : Option FList) (pre : String) : Bool :=
  match directory with
  | none => true
  | some es => specImmAll pre es

/-- Observable steps of the two adapter wrappers. -/
inductive AdapterEffect where
  | importExternal : AdapterEffect
  | addMsmsToPath : AdapterEffect
  | callbackCall : AdapterEffect
deriving DecidableEq

/-- Embeds `generate_embeddings` from `src/generate_embeddings.py`: validate
`output_format`, then (when `check_if_exists`) consult the guard and
return before the `sys.path.append` / import of the external script;
otherwise import and invoke the external command body. -/
def generate_embeddings (data : Option FList) (output_format : String)
    (check_if_exists : Bool) : Except String (List AdapterEffect) :=
  if output_format != "npz" && output_format != "hdf5" then
    .error "output_format must be either npz or hdf5"
  else
    let filename := if output_format == "npz" then "embeddings.npz" else "embeddings.hdf5"
    if check_if_exists && all_exist_in_directory data filename then .ok []
    else .ok [AdapterEffect.importExternal, AdapterEffect.callbackCall]

/-- Embeds `extract_binding_info` from `src/extract_binding_info.py`: the
`sys.path.append` and import of the external script run BEFORE the
`check_if_exists` guard; after the guard, optionally extend `PATH` with
the MSMS directory and invoke the external command body. -/
def extract_binding_info (data : Option FList) (check_if_exists : Bool)
    (msms_path : Option String) : List AdapterEffect :=
  AdapterEffect.importExternal ::
    (if check_if_exists && all_exist_in_directory data "binding.npz" then []
     else
       (match msms_path with
        | some _ => [AdapterEffect.addMsmsToPath]
        | none => []) ++ [AdapterEffect.callbackCall])

example :
    all_exist_in_directory
      (some (FList.cons (FTree.dir "S" (FList.cons (FTree.file "emb_1")
        (FList.cons (FTree.dir "T" FList.nil) FList.nil))) FList.nil)) "emb" = false := by
  decide

example :
    specImmediateAllExist
      (some (FList.cons (FTree.dir "S" (FList.cons (FTree.file "emb_1")
        (FList.cons (FTree.dir "T" FList.nil) FList.nil))) FList.nil)) "emb" = true := by
  decide

example : all_exist_in_directory none "emb" = true := by decide

example : extract_binding_info (some FList.nil) true none = [AdapterEffect.importExternal] := by
  decide

example : generate_embeddings (some FList.nil) "npz" true = .ok [] := by decide

/-! ## Helper lemmas -/

theorem toNat_ofNat_small (n : Nat) (hn : n < 55296) : (Char.ofNat n).toNat = n := by
  have hv : n.isValidChar := Or.inl hn
  simp only [Char.ofNat, hv, dif_pos]
  simp [Char.ofNatAux, Char.toNat, UInt32.toNat,
    Nat.mod_eq_of_lt (by omega : n < 4294967296)]

theorem isAlnumAscii_upperChar (c : Char) (h : isAlnumAscii c = true) :
    isAlnumAscii (upperChar c) = true := by
  unfold upperChar
  split
  · rename_i hlo
    simp only [Bool.and_eq_true, decide_eq_true_eq] at hlo
    rw [isAlnumAscii]
    rw [toNat_ofNat_small _ (by omega)]
    simp only [Bool.or_eq_true, Bool.and_eq_true, decide_eq_true_eq]
    left
    omega
  · exact h

theorem firstRun4_spec : ∀ (l m : List Char), firstRun4 l = some m →
    m.length = 4 ∧ m.all isAlnumAscii = true
  | c1 :: c2 :: c3 :: c4 :: rest, m, h => by
    rw [firstRun4] at h
    split at h
    · rename_i hal
      simp only [Option.some.injEq] at h
      subst h
      refine ⟨rfl, ?_⟩
      simp only [Bool.and_eq_true] at hal
      simp [List.all, hal.1.1.1, hal.1.1.2, hal.1.2, hal.2]
    · exact firstRun4_spec (c2 :: c3 :: c4 :: rest) m h
  | [], _, h => by simp [firstRun4] at h
  | [_], _, h => by simp [firstRun4] at h
  | [_, _], _, h => by simp [firstRun4] at h
  | [_, _, _], _, h => by simp [firstRun4] at h

theorem normalize_mem_spec (s t : String) (ht : t ∈ normalize_pdb_tokens s) :
    t.data.length = 4 ∧ t.data.all isAlnumAscii = true := by
  unfold normalize_pdb_tokens at ht
  simp only [List.mem_filterMap] at ht
  obtain ⟨p, _, hfm⟩ := ht
  split at hfm
  · simp at hfm
  · rw [Option.map_eq_some'] at hfm
    obtain ⟨m, hm, rfl⟩ := hfm
    obtain ⟨hlen, hall⟩ := firstRun4_spec _ _ hm
    refine ⟨by simpa using hlen, ?_⟩
    rw [List.all_eq_true] at hall ⊢
    intro c hc
    simp only [String.data] at hc
    rw [List.mem_map] at hc
    obtain ⟨c0, hc0, rfl⟩ := hc
    exact isAlnumAscii_upperChar c0 (hall c0 hc0)

/-! ## Claims -/

/-- C4: every element returned by `normalize_pdb_tokens` is a length-4
alphanumeric string (the upper-cased leftmost run of 4 alphanumeric
characters of its fragment), and on the spec's examples the normalizer
returns `["1ABC"]` for `"1abc_A"`, `["1ABC", "2DEF"]` for
`"1ABC; 2def"`, and `[]` for `"  "`. -/
theorem C4_normalize_tokens :
    (∀ (s t : String), t ∈ normalize_pdb_tokens s →
        t.data.length = 4 ∧ t.data.all isAlnumAscii = true) ∧
    normalize_pdb_tokens "1abc_A" = ["1ABC"] ∧
    normalize_pdb_tokens "1ABC; 2def" = ["1ABC", "2DEF"] ∧
    normalize_pdb_tokens "  " = [] :=
  ⟨fun s t ht => normalize_mem_spec s t ht, by decide, by decide, by decide⟩

/-- Witness for C4 at a concrete input. -/
theorem C4_normalize_tokens_witness :
    "1ABC".data.length = 4 ∧ "1ABC".data.all isAlnumAscii = true :=
  C4_normalize_tokens.1 "1abc_A" "1ABC" (by decide)

/-- Is an effect a network request? -/
def isGet : Effect → Bool
  | .getEff _ => true
  | _ => false

/-- The templated download URL of one id. -/
def rcsbUrl (id_up : String) : String :=
  "https://files.rcsb.org/download/" ++ id_up ++ ".pdb"

/-- The per-id destination directory checked by `download_single`. -/
def idDirPath (out_dir pdb_id : String) : String :=
  pathJoin out_dir (pyUpper pdb_id)

/-- The trace of `fuel` consecutive transport-failed attempts starting at
counter value `attempt`. -/
def excTrace (url : String) : Nat → Nat → List Effect
  | 0, _ => []
  | fuel + 1, attempt =>
    Effect.getEff url :: Effect.sleepEff (10 + (attempt + 1) * 5) ::
      excTrace url fuel (attempt + 1)

theorem excTrace_eq_flatMap (url : String) : ∀ (fuel attempt : Nat),
    excTrace url fuel attempt = (List.range fuel).flatMap (fun j =>
      [Effect.getEff url, Effect.sleepEff (10 + (attempt + j + 1) * 5)])
  | 0, attempt => by simp [excTrace]
  | fuel + 1, attempt => by
    rw [excTrace, excTrace_eq_flatMap url fuel (attempt + 1)]
    have hshift : ∀ (g : Nat → List Effect),
        (List.range (fuel + 1)).flatMap g =
          g 0 ++ (List.range fuel).flatMap (fun j => g (j + 1)) := by
      intro g
      rw [List.range_succ_eq_map, List.flatMap_cons, List.flatMap_map]
    rw [hshift]
    simp only [List.cons_append, List.nil_append]
    have h1 : attempt + 0 + 1 = attempt + 1 := by omega
    have h2 : ∀ j : Nat, attempt + (j + 1) + 1 = attempt + 1 + j + 1 := fun j => by omega
    simp only [h1, h2]

theorem dlLoop_all_exc (net : Nat → HttpResult) (url out_pdb id_up : String) :
    ∀ (fuel attempt : Nat) (acc : List Effect),
      (∀ k, attempt ≤ k → k < attempt + fuel → net k = .exc) →
      dlLoop net url out_pdb id_up fuel attempt acc =
        ⟨id_up, "not_found", none, acc.reverse ++ excTrace url fuel attempt⟩
  | 0, attempt, acc, _ => by simp [dlLoop, excTrace]
  | fuel + 1, attempt, acc, h => by
    rw [dlLoop, h attempt (le_refl _) (by omega)]
    rw [dlLoop_all_exc net url out_pdb id_up fuel (attempt + 1) _
      (fun k hk1 hk2 => h k (by omega) (by omega))]
    simp [excTrace]

theorem countP_isGet_flatMap (url : String) (g : Nat → Nat) (l : List Nat) :
    (l.flatMap (fun j => [Effect.getEff url, Effect.sleepEff (g j)])).countP isGet =
      l.length := by
  induction l with
  | nil => rfl
  | cons x rest ih => simp [List.countP_cons, isGet, ih]

/-- C5: with the destination absent and a transport exception on every
attempt, `download_single` makes exactly `max_retries` request attempts,
sleeps `1 + attempt * 0.5` seconds (here in tenths of a second:
`10 + attempt * 5`, for attempt counter values 1, 2, ...) after each failed
attempt, and ends with `not_found`. -/
theorem C5_retry_policy (fs : List String) (net : Nat → HttpResult)
    (pdb_id out_dir : String) (max_retries : Nat)
    (hfs : fs.contains (idDirPath out_dir pdb_id) = false)
    (hexc : ∀ k, k < max_retries → net k = .exc) :
    download_single fs net pdb_id out_dir max_retries =
      ⟨pyUpper pdb_id, "not_found", none,
        Effect.mkdirEff (idDirPath out_dir pdb_id) ::
          (List.range max_retries).flatMap (fun j =>
            [Effect.getEff (rcsbUrl (pyUpper pdb_id)),
             Effect.sleepEff (10 + (j + 1) * 5)])⟩ ∧
    (download_single fs net pdb_id out_dir max_retries).effects.countP isGet =
      max_retries := by
  have hmain : download_single fs net pdb_id out_dir max_retries =
      ⟨pyUpper pdb_id, "not_found", none,
        Effect.mkdirEff (idDirPath out_dir pdb_id) ::
          (List.range max_retries).flatMap (fun j =>
            [Effect.getEff (rcsbUrl (pyUpper pdb_id)),
             Effect.sleepEff (10 + (j + 1) * 5)])⟩ := by
    have hres := dlLoop_all_exc net
      ("https://files.rcsb.org/download/" ++ pyUpper pdb_id ++ ".pdb")
      (pathJoin (pathJoin out_dir (pyUpper pdb_id)) "protein.pdb")
      (pyUpper pdb_id) max_retries 0 []
      (fun k _ hk2 => hexc k (by omega))
    rw [idDirPath] at hfs
    simp only [download_single, hfs, Bool.false_eq_true, if_false]
    rw [hres, excTrace_eq_flatMap]
    simp [rcsbUrl, idDirPath]
  refine ⟨hmain, ?_⟩
  rw [hmain]
  simp only [List.countP_cons]
  rw [countP_isGet_flatMap]
  simp [isGet, List.length_range]

/-- Witness for C5 at a concrete input. -/
theorem C5_retry_policy_witness :
    download_single [] (fun _ => .exc) "1abc" "data" 2 =
      ⟨"1ABC", "not_found", none,
        [Effect.mkdirEff "data/1ABC",
         Effect.getEff "https://files.rcsb.org/download/1ABC.pdb",
         Effect.sleepEff 15,
         Effect.getEff "https://files.rcsb.org/download/1ABC.pdb",
         Effect.sleepEff 20]⟩ := by
  have h := (C5_retry_policy [] (fun _ => .exc) "1abc" "data" 2 (by decide)
    (fun k _ => rfl)).1
  rw [h]
  decide

/-- C6: with the destination absent, a response with status other than 200
or with a body of at most 100 bytes makes `download_single` answer
`not_found` immediately: one request, no file write, no sleep, no
retry. -/
theorem C6_content_not_found (fs : List String) (net : Nat → HttpResult)
    (pdb_id out_dir : String) (max_retries : Nat) (s : Nat) (c : List Nat)
    (hfs : fs.contains (idDirPath out_dir pdb_id) = false)
    (hk : 0 < max_retries)
    (hnet : net 0 = .response s c)
    (hbad : s ≠ 200 ∨ c.length ≤ 100) :
    download_single fs net pdb_id out_dir max_retries =
      ⟨pyUpper pdb_id, "not_found", none,
        [Effect.mkdirEff (idDirPath out_dir pdb_id),
         Effect.getEff (rcsbUrl (pyUpper pdb_id))]⟩ := by
  obtain ⟨fuel, rfl⟩ : ∃ fuel, max_retries = fuel + 1 :=
    ⟨max_retries - 1, by omega⟩
  have hcond : (s == 200 && !c.isEmpty && decide (c.length > 100)) = false := by
    rcases hbad with h | h
    · simp [beq_eq_false_iff_ne.mpr h]
    · simp [Nat.not_lt.mpr h]
  have hres : dlLoop net
      ("https://files.rcsb.org/download/" ++ pyUpper pdb_id ++ ".pdb")
      (pathJoin (pathJoin out_dir (pyUpper pdb_id)) "protein.pdb")
      (pyUpper pdb_id) (fuel + 1) 0 [] =
      ⟨pyUpper pdb_id, "not_found", none,
        [Effect.getEff ("https://files.rcsb.org/download/" ++ pyUpper pdb_id ++ ".pdb")]⟩ := by
    rw [dlLoop, hnet]
    simp [hcond]
  rw [idDirPath] at hfs
  simp only [download_single, hfs, Bool.false_eq_true, if_false]
  rw [hres]
  simp [rcsbUrl, idDirPath]

/-- Witness for C6 at a concrete input: a 200 response with a 50-byte
body. -/
theorem C6_content_not_found_witness :
    download_single [] (fun _ => .response 200 (List.replicate 50 7)) "1abc" "data" 3 =
      ⟨"1ABC", "not_found", none,
        [Effect.mkdirEff "data/1ABC",
         Effect.getEff "https://files.rcsb.org/download/1ABC.pdb"]⟩ := by
  have h := C6_content_not_found [] (fun _ => .response 200 (List.replicate 50 7))
    "1abc" "data" 3 200 (List.replicate 50 7) (by decide) (by decide) rfl
    (Or.inr (by decide))
  rw [h]
  decide

theorem dlLoop_mem_get (net : Nat → HttpResult) (url out_pdb id_up : String) :
    ∀ (fuel attempt : Nat) (acc : List Effect),
      0 < fuel ∨ Effect.getEff url ∈ acc →
      Effect.getEff url ∈ (dlLoop net url out_pdb id_up fuel attempt acc).effects
  | 0, _, acc, h => by
    rcases h with h | h
    · omega
    · simpa [dlLoop] using h
  | fuel + 1, attempt, acc, _ => by
    rw [dlLoop]
    split
    · split <;> simp
    · exact dlLoop_mem_get net url out_pdb id_up fuel (attempt + 1) _ (Or.inr (by simp))

/-- C3 counterexample: the on-disk check of `download_single` is on the
per-id DIRECTORY, not on the artifact `protein.pdb`. On a filesystem
where the directory `data/1ABC` exists but `data/1ABC/protein.pdb` does
not, the function returns `exists` and issues no network request, though
the claim requires an HTTP GET whenever the artifact is absent. -/
theorem C3_artifact_check_counterexample :
    (download_single ["data/1ABC"] (fun _ => .exc) "1ABC" "data" 3).status = "exists" ∧
    (download_single ["data/1ABC"] (fun _ => .exc) "1ABC" "data" 3).effects = [] ∧
    (["data/1ABC"] : List String).contains "data/1ABC/protein.pdb" = false := by
  decide

/-- C3 (amended): `download_single` returns `exists` with no side effect
exactly when the per-id DIRECTORY `out_dir/{ID}` already exists; when that
directory is absent (and `max_retries` is positive, as in every call
site), it issues an HTTP GET to the templated URL
`https://files.rcsb.org/download/{ID}.pdb`. -/
theorem C3_exists_guard (fs : List String) (net : Nat → HttpResult)
    (pdb_id out_dir : String) (max_retries : Nat) (hk : 0 < max_retries) :
    (fs.contains (idDirPath out_dir pdb_id) = true →
      download_single fs net pdb_id out_dir max_retries =
        ⟨pyUpper pdb_id, "exists", none, []⟩) ∧
    (fs.contains (idDirPath out_dir pdb_id) = false →
      Effect.getEff (rcsbUrl (pyUpper pdb_id)) ∈
        (download_single fs net pdb_id out_dir max_retries).effects) := by
  constructor
  · intro h
    rw [idDirPath] at h
    simp only [download_single, h]
    simp
  · intro h
    rw [idDirPath] at h
    simp only [download_single, h, Bool.false_eq_true, if_false]
    rw [rcsbUrl]
    exact List.mem_cons_of_mem _
      (dlLoop_mem_get net _ _ _ max_retries 0 [] (Or.inl hk))

/-- Witness for C3 (amended) at concrete inputs, one per branch. -/
theorem C3_exists_guard_witness :
    download_single ["data/1ABC"] (fun _ => .exc) "1abc" "data" 3 =
      ⟨"1ABC", "exists", none, []⟩ ∧
    Effect.getEff (rcsbUrl "1ABC") ∈
      (download_single [] (fun _ => .exc) "1abc" "data" 3).effects :=
  ⟨(C3_exists_guard ["data/1ABC"] (fun _ => .exc) "1abc" "data" 3 (by decide)).1
      (by decide),
   (C3_exists_guard [] (fun _ => .exc) "1abc" "data" 3 (by decide)).2 (by decide)⟩

theorem mem_applyDLEffects (p : String) : ∀ (l : List Effect) (fs : List String),
    p ∈ fs → p ∈ applyDLEffects fs l
  | [], _, h => h
  | .mkdirEff _ :: rest, _, h =>
    mem_applyDLEffects p rest _ (List.mem_cons_of_mem _ h)
  | .writeEff _ _ :: rest, _, h =>
    mem_applyDLEffects p rest _ (List.mem_cons_of_mem _ h)
  | .getEff _ :: rest, fs, h => mem_applyDLEffects p rest fs h
  | .sleepEff _ :: rest, fs, h => mem_applyDLEffects p rest fs h

theorem idDir_mem_after_download (fs : List String) (net : Nat → HttpResult)
    (pdb_id out_dir : String) (max_retries : Nat) :
    idDirPath out_dir pdb_id ∈
      applyDLEffects fs (download_single fs net pdb_id out_dir max_retries).effects := by
  rw [idDirPath]
  by_cases h : fs.contains (pathJoin out_dir (pyUpper pdb_id)) = true
  · simp only [download_single, h, if_true]
    exact mem_applyDLEffects _ [] fs (by simpa using h)
  · rw [Bool.not_eq_true] at h
    simp only [download_single, h, Bool.false_eq_true, if_false]
    rw [applyDLEffects]
    exact mem_applyDLEffects _ _ _ (List.mem_cons_self _ _)

theorem mem_prepareGo_fs (net : String → Nat → HttpResult) (pdb_dir : String)
    (max_retries : Nat) (p : String) : ∀ (ids : List String) (fs : List String),
    p ∈ fs → p ∈ (prepareGo net pdb_dir max_retries fs ids).2
  | [], _, h => h
  | pid :: rest, fs, h => by
    rw [prepareGo]
    exact mem_prepareGo_fs net pdb_dir max_retries p rest _
      (mem_applyDLEffects p _ fs h)

theorem idDirs_mem_prepareGo (net : String → Nat → HttpResult) (pdb_dir : String)
    (max_retries : Nat) : ∀ (ids : List String) (fs : List String) (pid : String),
    pid ∈ ids →
    idDirPath pdb_dir pid ∈ (prepareGo net pdb_dir max_retries fs ids).2
  | [], _, _, h => absurd h (List.not_mem_nil _)
  | pid0 :: rest, fs, pid, h => by
    rw [prepareGo]
    rcases List.mem_cons.mp h with rfl | h
    · exact mem_prepareGo_fs net pdb_dir max_retries _ rest _
        (idDir_mem_after_download fs (net pid) pid pdb_dir max_retries)
    · exact idDirs_mem_prepareGo net pdb_dir max_retries rest _ pid h

theorem prepareGo_all_exists (net : String → Nat → HttpResult) (pdb_dir : String)
    (max_retries : Nat) : ∀ (ids : List String) (fs : List String),
    (∀ pid ∈ ids, idDirPath pdb_dir pid ∈ fs) →
    ∀ r ∈ (prepareGo net pdb_dir max_retries fs ids).1,
      r.status = "exists" ∧ r.effects = []
  | [], _, _, r, hr => absurd hr (List.not_mem_nil _)
  | pid :: rest, fs, hall, r, hr => by
    have hdir : fs.contains (pathJoin pdb_dir (pyUpper pid)) = true := by
      have := hall pid (List.mem_cons_self _ _)
      rw [idDirPath] at this
      simpa using this
    have hdl : download_single fs (net pid) pid pdb_dir max_retries =
        ⟨pyUpper pid, "exists", none, []⟩ := by
      simp only [download_single, hdir]
      simp
    rw [prepareGo] at hr
    simp only [hdl, applyDLEffects] at hr
    rcases List.mem_cons.mp hr with rfl | hr
    · exact ⟨rfl, rfl⟩
    · exact prepareGo_all_exists net pdb_dir max_retries rest fs
        (fun q hq => hall q (List.mem_cons_of_mem _ hq)) r hr

/-- C2: running `prepare_pdb_directory` twice over the same raw id list
with no intervening deletion yields the outcome `exists` with an empty
effect trace — in particular zero network requests — for every id of the
second run (whatever the network did during the first run, because even a
failed first-run download leaves the per-id directory behind). -/
theorem C2_fetch_idempotence (fs : List String)
    (net1 net2 : String → Nat → HttpResult) (pdb_dir : String)
    (pdb_ids : List String) (k1 k2 : Nat) (r : DLRes)
    (hr : r ∈ (prepare_pdb_directory
        (prepare_pdb_directory fs net1 pdb_dir pdb_ids k1).2
        net2 pdb_dir pdb_ids k2).1) :
    r.status = "exists" ∧ r.effects = [] := by
  rw [prepare_pdb_directory] at hr
  refine prepareGo_all_exists net2 pdb_dir k2 _ _ (fun pid hpid => ?_) r hr
  rw [prepare_pdb_directory]
  exact List.mem_cons_of_mem _
    (idDirs_mem_prepareGo net1 pdb_dir k1 _ _ pid hpid)

/-- Witness for C2 at a concrete input: one id, first run all transport
failures, second run reports `exists` with no effects. -/
theorem C2_fetch_idempotence_witness :
    (⟨"1ABC", "exists", none, []⟩ : DLRes) ∈
      (prepare_pdb_directory
        (prepare_pdb_directory [] (fun _ _ => .exc) "data" ["1abc"] 1).2
        (fun _ _ => .exc) "data" ["1abc"] 1).1 ∧
    ("exists" : String) = "exists" ∧ ([] : List Effect) = [] :=
  ⟨by decide,
   C2_fetch_idempotence [] (fun _ _ => .exc) (fun _ _ => .exc) "data" ["1abc"] 1 1
     ⟨"1ABC", "exists", none, []⟩ (by decide)⟩

/-- C7 counterexample: a spec with TWO positional pairs whose source file
is absent yields a SINGLE `missing` outcome, not one per pair. -/
theorem C7_missing_counterexample :
    (extract_single_ligand ⟨[], fun _ => []⟩ "data" "1ABC" "A;B" "10;20" true).result =
      .ok [("missing", "data/1ABC/protein.pdb")] ∧
    (pySplitSemi "A;B").length = 2 := by decide

theorem extract_missing_eq (fs : LigFS)
    (pdb_dir pdb_id chain_ids residue_ids : String) (skip_existing : Bool)
    (h : fs.files.contains (pathJoin (pathJoin pdb_dir pdb_id) "protein.pdb") = false) :
    extract_single_ligand fs pdb_dir pdb_id chain_ids residue_ids skip_existing =
      ⟨.ok [("missing", pathJoin (pathJoin pdb_dir pdb_id) "protein.pdb")], []⟩ := by
  simp only [extract_single_ligand, h]
  simp

/-- C7 (amended): when the source structure file is absent,
`extract_single_ligand` reports exactly one `missing` outcome for the
whole spec — whatever the number of (chain, residue) pairs — makes no
attempt and creates no file (empty effect trace). -/
theorem C7_missing_no_attempt (fs : LigFS)
    (pdb_dir pdb_id chain_ids residue_ids : String) (skip_existing : Bool)
    (h : fs.files.contains (pathJoin (pathJoin pdb_dir pdb_id) "protein.pdb") = false) :
    extract_single_ligand fs pdb_dir pdb_id chain_ids residue_ids skip_existing =
      ⟨.ok [("missing", pathJoin (pathJoin pdb_dir pdb_id) "protein.pdb")], []⟩ :=
  extract_missing_eq fs pdb_dir pdb_id chain_ids residue_ids skip_existing h

/-- Witness for C7 (amended) at a concrete input. -/
theorem C7_missing_no_attempt_witness :
    extract_single_ligand ⟨[], fun _ => []⟩ "data" "1ABC" "A;B;C" "10;20;30" true =
      ⟨.ok [("missing", "data/1ABC/protein.pdb")], []⟩ :=
  C7_missing_no_attempt ⟨[], fun _ => []⟩ "data" "1ABC" "A;B;C" "10;20;30" true
    (by decide)

/-- C1 counterexample: a spec with mismatched chain/residue list lengths
whose source file is absent raises NO error at all — the file-existence
check runs first and short-circuits to `missing` — contradicting "raises a
fatal input error immediately and before touching the filesystem". -/
theorem C1_mismatch_counterexample :
    (extract_single_ligand ⟨[], fun _ => []⟩ "data" "1ABC" "A;B" "10" true).result =
      .ok [("missing", "data/1ABC/protein.pdb")] ∧
    (pySplitSemi "A;B").length ≠ (pySplitSemi "10").length := by decide

/-- C1 (amended): for a spec with mismatched list lengths,
`extract_single_ligand` raises the `ValueError` only after the source-file
existence check and only when the source file exists (if it is absent the
spec is reported `missing` and no error is raised); the error produces no
filesystem effect, and `prepare_ligands_from_asd` catches it at the task
boundary: the bad row contributes one logged error and the remaining rows
are processed exactly as without it — the run is not aborted. -/
theorem C1_mismatch_handling (fs : LigFS)
    (pdb_dir pdb_id chain_ids residue_ids : String) (skip_existing : Bool)
    (hlen : (pySplitSemi chain_ids).length ≠ (pySplitSemi residue_ids).length) :
    (fs.files.contains (pathJoin (pathJoin pdb_dir pdb_id) "protein.pdb") = true →
      extract_single_ligand fs pdb_dir pdb_id chain_ids residue_ids skip_existing =
        ⟨.error ("Number of chain IDs and residue IDs do not match for PDB ID " ++ pdb_id),
          []⟩) ∧
    (fs.files.contains (pathJoin (pathJoin pdb_dir pdb_id) "protein.pdb") = false →
      extract_single_ligand fs pdb_dir pdb_id chain_ids residue_ids skip_existing =
        ⟨.ok [("missing", pathJoin (pathJoin pdb_dir pdb_id) "protein.pdb")], []⟩) ∧
    (fs.files.contains (pathJoin (pathJoin pdb_dir pdb_id) "protein.pdb") = true →
      ∀ rest : List LigRow,
        prepare_ligands_from_asd fs pdb_dir
            (⟨pdb_id, chain_ids, residue_ids⟩ :: rest) skip_existing =
          ({ (prepare_ligands_from_asd fs pdb_dir rest skip_existing).1 with
              errors :=
                ("Number of chain IDs and residue IDs do not match for PDB ID " ++ pdb_id) ::
                  (prepare_ligands_from_asd fs pdb_dir rest skip_existing).1.errors },
            (prepare_ligands_from_asd fs pdb_dir rest skip_existing).2)) := by
  have herr : fs.files.contains (pathJoin (pathJoin pdb_dir pdb_id) "protein.pdb") = true →
      extract_single_ligand fs pdb_dir pdb_id chain_ids residue_ids skip_existing =
        ⟨.error ("Number of chain IDs and residue IDs do not match for PDB ID " ++ pdb_id),
          []⟩ := by
    intro h
    simp only [extract_single_ligand, h]
    simp [hlen]
  refine ⟨herr, fun h =>
    extract_missing_eq fs pdb_dir pdb_id chain_ids residue_ids skip_existing h,
    fun h rest => ?_⟩
  rw [prepare_ligands_from_asd, prepLigGo]
  simp only [herr h, applyExtractEffects]
  rw [prepare_ligands_from_asd]

/-- Witness for C1 (amended) at a concrete input (source file present). -/
theorem C1_mismatch_handling_witness :
    extract_single_ligand ⟨["data/1ABC/protein.pdb"], fun _ => []⟩
        "data" "1ABC" "A;B" "10" true =
      ⟨.error "Number of chain IDs and residue IDs do not match for PDB ID 1ABC", []⟩ :=
  (C1_mismatch_handling ⟨["data/1ABC/protein.pdb"], fun _ => []⟩
      "data" "1ABC" "A;B" "10" true (by decide)).1 (by decide)

/-- The outcome the claim predicts for the positional pair at index `i`:
`skipped` when `skip_existing` and `ligand_{i}.pdb` exists, `extracted`
otherwise. -/
def pairOutcome (fs : LigFS) (protein_dir : String) (skip : Bool) :
    Nat × (String × String) → String × String
  | (i, _) =>
    let out := pathJoin protein_dir ("ligand_" ++ toString i ++ ".pdb")
    if skip && fs.files.contains out then ("skipped", out) else ("extracted", out)

/-- The effects the claim predicts for the positional pair at index `i`:
nothing when skipped (the source is not parsed); otherwise one parse of
the source and one write of exactly the residues whose parent chain id
equals the pair's chain and whose sequence number equals the pair's
residue number. -/
def pairFx (fs : LigFS) (protein_dir pdb_file : String) (skip : Bool) :
    Nat × (String × String) → List ExtractEffect
  | (i, (chain_id, residue_id)) =>
    let out := pathJoin protein_dir ("ligand_" ++ toString i ++ ".pdb")
    if skip && fs.files.contains out then []
    else [ExtractEffect.parseEff pdb_file,
      ExtractEffect.writeLigEff out ((fs.content pdb_file).filter
        (fun r => r.chain == chain_id && r.seq == (pyToInt residue_id).getD 0))]

theorem selectResidues_of_parse (chain_id residue_id : String) (n : Int)
    (hp : pyToInt residue_id = some n) : ∀ rs : List Residue,
    selectResidues chain_id residue_id rs =
      some (rs.filter (fun r => r.chain == chain_id && r.seq == n))
  | [] => by simp [selectResidues]
  | r :: rest => by
    rw [selectResidues, accept_residue,
      selectResidues_of_parse chain_id residue_id n hp rest]
    by_cases hc : (r.chain == chain_id) = true
    · rw [if_pos hc, hp, List.filter_cons]
      by_cases hs : (r.seq == n) = true
      · simp [hc, hs]
      · simp [hc, hs]
    · rw [if_neg hc, List.filter_cons]
      simp [hc]

theorem extractLoop_spec (fs : LigFS) (protein_dir pdb_file : String) (skip : Bool) :
    ∀ (pairs : List (String × String)) (i : Nat) (acc : List (String × String))
      (eff : List ExtractEffect),
      (∀ pr ∈ pairs, (pyToInt pr.2).isSome = true) →
      extractLoop fs protein_dir pdb_file skip pairs i acc eff =
        ⟨.ok (acc.reverse ++
            (List.enumFrom i pairs).map (pairOutcome fs protein_dir skip)),
          eff.reverse ++
            (List.enumFrom i pairs).flatMap (pairFx fs protein_dir pdb_file skip)⟩
  | [], i, acc, eff, _ => by simp [extractLoop, List.enumFrom]
  | (chain_id, residue_id) :: rest, i, acc, eff, hp => by
    have hrest : ∀ pr ∈ rest, (pyToInt pr.2).isSome = true :=
      fun pr hpr => hp pr (List.mem_cons_of_mem _ hpr)
    obtain ⟨n, hn⟩ : ∃ n, pyToInt residue_id = some n :=
      Option.isSome_iff_exists.mp (hp (chain_id, residue_id) (List.mem_cons_self _ _))
    rw [extractLoop]
    by_cases hskip :
        (skip && fs.files.contains
          (pathJoin protein_dir ("ligand_" ++ toString i ++ ".pdb"))) = true
    · rw [if_pos hskip,
        extractLoop_spec fs protein_dir pdb_file skip rest (i + 1) _ eff hrest]
      simp only [List.enumFrom, List.map_cons, List.flatMap_cons]
      rw [pairOutcome, pairFx]
      simp only [hskip, if_true, List.reverse_cons, List.append_assoc,
        List.singleton_append, List.nil_append]
    · rw [if_neg hskip]
      simp only [selectResidues_of_parse chain_id residue_id n hn]
      rw [extractLoop_spec fs protein_dir pdb_file skip rest (i + 1) _ _ hrest]
      simp only [List.enumFrom, List.map_cons, List.flatMap_cons]
      rw [pairOutcome, pairFx]
      rw [Bool.not_eq_true] at hskip
      simp only [hskip, Bool.false_eq_true, if_false, List.reverse_cons,
        List.append_assoc, List.singleton_append, List.cons_append, List.nil_append, hn]
      simp [Option.getD]

/-- C8: for a spec whose source file exists, whose chain and residue lists
have equal length, and whose residue ids are numeric, the outcome of the
pair at index `i` is `skipped` (with the source left unparsed) when
`skip_existing` holds and `ligand_{i}.pdb` exists, and otherwise
`extracted`, with the written file containing exactly the residues whose
parent chain id equals the pair's chain and whose sequence number equals
the pair's residue number. -/
theorem C8_positional_pairs (fs : LigFS)
    (pdb_dir pdb_id chain_ids residue_ids : String) (skip_existing : Bool)
    (hex : fs.files.contains (pathJoin (pathJoin pdb_dir pdb_id) "protein.pdb") = true)
    (hlen : (pySplitSemi chain_ids).length = (pySplitSemi residue_ids).length)
    (hparse : ∀ rid ∈ pySplitSemi residue_ids, (pyToInt rid).isSome = true) :
    extract_single_ligand fs pdb_dir pdb_id chain_ids residue_ids skip_existing =
      ⟨.ok ((List.enumFrom 0 ((pySplitSemi chain_ids).zip (pySplitSemi residue_ids))).map
          (pairOutcome fs (pathJoin pdb_dir pdb_id) skip_existing)),
        (List.enumFrom 0 ((pySplitSemi chain_ids).zip (pySplitSemi residue_ids))).flatMap
          (pairFx fs (pathJoin pdb_dir pdb_id)
            (pathJoin (pathJoin pdb_dir pdb_id) "protein.pdb") skip_existing)⟩ := by
  have hzip : ∀ pr ∈ (pySplitSemi chain_ids).zip (pySplitSemi residue_ids),
      (pyToInt pr.2).isSome = true :=
    fun pr hpr => hparse pr.2 (List.of_mem_zip hpr).2
  simp only [extract_single_ligand, hex]
  simp only [Bool.not_true, Bool.false_eq_true, if_false, hlen, ne_eq,
    not_true_eq_false, if_neg, ite_false]
  rw [extractLoop_spec fs (pathJoin pdb_dir pdb_id)
    (pathJoin (pathJoin pdb_dir pdb_id) "protein.pdb") skip_existing _ 0 [] [] hzip]
  simp

/-- Witness for C8 at a concrete input: two pairs, the first target file
already on disk (skipped), the second freshly extracted with exactly the
matching residues. -/
theorem C8_positional_pairs_witness :
    extract_single_ligand
        ⟨["data/1ABC/protein.pdb", "data/1ABC/ligand_0.pdb"],
          fun p => if p = "data/1ABC/protein.pdb" then
            [⟨"A", 10⟩, ⟨"B", 20⟩, ⟨"A", 99⟩] else []⟩
        "data" "1ABC" "A;B" "10;20" true =
      ⟨.ok [("skipped", "data/1ABC/ligand_0.pdb"),
            ("extracted", "data/1ABC/ligand_1.pdb")],
        [ExtractEffect.parseEff "data/1ABC/protein.pdb",
         ExtractEffect.writeLigEff "data/1ABC/ligand_1.pdb" [⟨"B", 20⟩]]⟩ := by
  have h := C8_positional_pairs
    ⟨["data/1ABC/protein.pdb", "data/1ABC/ligand_0.pdb"],
      fun p => if p = "data/1ABC/protein.pdb" then
        [⟨"A", 10⟩, ⟨"B", 20⟩, ⟨"A", 99⟩] else []⟩
    "data" "1ABC" "A;B" "10;20" true (by decide) (by decide) (by decide)
  rw [h]
  decide

mutual
theorem dirOk_iff_dirsBelow (pre : String) : ∀ t : FTree,
    dirOk pre t = true ↔ ∀ d ∈ dirsBelowT t, hasPrefEntry pre d.2 = true
  | .file n => by simp [dirOk, dirsBelowT]
  | .dir n cs => by
    rw [dirOk, dirsBelowT, Bool.and_eq_true, allOk_iff_dirsBelow pre cs]
    simp
theorem allOk_iff_dirsBelow (pre : String) : ∀ l : FList,
    allOk pre l = true ↔ ∀ d ∈ dirsBelowL l, hasPrefEntry pre d.2 = true
  | .nil => by simp [allOk, dirsBelowL]
  | .cons e rest => by
    rw [allOk, dirsBelowL, Bool.and_eq_true, dirOk_iff_dirsBelow pre e,
      allOk_iff_dirsBelow pre rest]
    constructor
    · intro h d hd
      rcases List.mem_append.mp hd with hd | hd
      · exact h.1 d hd
      · exact h.2 d hd
    · intro h
      exact ⟨fun d hd => h d (List.mem_append.mpr (Or.inl hd)),
        fun d hd => h d (List.mem_append.mpr (Or.inr hd))⟩
end

/-- C9 counterexample: a tree whose single immediate subdirectory `S`
contains the file `emb_1` (so the claim's immediate-subdirectory,
files-only reading is satisfied) but whose nested subdirectory `S/T` is
empty. The code walks recursively and returns `False`, the claim demands
`True`. -/
theorem C9_immediate_counterexample :
    specImmediateAllExist
        (some (FList.cons (FTree.dir "S" (FList.cons (FTree.file "emb_1")
          (FList.cons (FTree.dir "T" FList.nil) FList.nil))) FList.nil)) "emb" = true ∧
    all_exist_in_directory
        (some (FList.cons (FTree.dir "S" (FList.cons (FTree.file "emb_1")
          (FList.cons (FTree.dir "T" FList.nil) FList.nil))) FList.nil)) "emb" = false := by
  decide

/-- C9 (amended): `all_exist_in_directory` returns `True` iff every
directory strictly below the root, at EVERY depth (not only the immediate
subdirectories), contains at least one ENTRY — file or directory — whose
name starts with the given string. -/
theorem C9_guard_recursive (es : FList) (pre : String) :
    all_exist_in_directory (some es) pre = true ↔
      ∀ d ∈ dirsBelowL es, hasPrefEntry pre d.2 = true := by
  rw [all_exist_in_directory]
  exact allOk_iff_dirsBelow pre es

/-- Witness for C9 (amended) at a concrete input: a single subdirectory
holding one matching file. -/
theorem C9_guard_recursive_witness :
    all_exist_in_directory
      (some (FList.cons (FTree.dir "S" (FList.cons (FTree.file "emb_1") FList.nil))
        FList.nil)) "emb" = true :=
  (C9_guard_recursive
    (FList.cons (FTree.dir "S" (FList.cons (FTree.file "emb_1") FList.nil)) FList.nil)
    "emb").mpr (by decide)

/-- No entry of the listing is a directory. -/
def noDirs : FList → Bool
  | .nil => true
  | .cons e rest => !isDirEntry e && noDirs rest

theorem allOk_of_noDirs (pre : String) : ∀ es : FList,
    noDirs es = true → allOk pre es = true
  | .nil, _ => rfl
  | .cons e rest, h => by
    rw [noDirs, Bool.and_eq_true] at h
    cases e with
    | file n => rw [allOk, dirOk, allOk_of_noDirs pre rest h.2]; simp
    | dir n cs => simp [isDirEntry] at h

/-- C10 counterexample: on an empty data directory with
`check_if_exists = True`, `generate_embeddings` returns with an empty
effect trace, but `extract_binding_info` does NOT skip all work: it
appends the external path and imports the external script before its
guard, so its trace is nonempty. -/
theorem C10_counterexample :
    generate_embeddings (some FList.nil) "npz" true = .ok [] ∧
    extract_binding_info (some FList.nil) true none = [AdapterEffect.importExternal] ∧
    [AdapterEffect.importExternal] ≠ ([] : List AdapterEffect) := by decide

/-- C10 (amended): a directory with no subdirectories at all — in
particular an empty listing — and a nonexistent directory make the guard
vacuously `True`; with `check_if_exists = True`, `generate_embeddings`
then returns before importing the external module (empty trace), and
`extract_binding_info` still imports the external script first but
returns without invoking the external extraction. -/
theorem C10_vacuous_guard (es : FList) (h : noDirs es = true) :
    (∀ pre, all_exist_in_directory (some es) pre = true) ∧
    (∀ pre, all_exist_in_directory none pre = true) ∧
    generate_embeddings (some es) "npz" true = .ok [] ∧
    generate_embeddings none "npz" true = .ok [] ∧
    (∀ msms, extract_binding_info (some es) true msms = [AdapterEffect.importExternal]) ∧
    (∀ msms, extract_binding_info none true msms = [AdapterEffect.importExternal]) := by
  have hall : ∀ pre, all_exist_in_directory (some es) pre = true := by
    intro pre
    rw [all_exist_in_directory]
    exact allOk_of_noDirs pre es h
  refine ⟨hall, fun _ => rfl, ?_, rfl, fun msms => ?_, fun msms => ?_⟩
  · simp [generate_embeddings, hall]
  · simp [extract_binding_info, hall]
  · simp [extract_binding_info, all_exist_in_directory]

/-- Witness for C10 (amended) at a concrete input: a directory containing
one plain file and no subdirectory. -/
theorem C10_vacuous_guard_witness :
    all_exist_in_directory
        (some (FList.cons (FTree.file "x") FList.nil)) "binding.npz" = true ∧
    generate_embeddings (some (FList.cons (FTree.file "x") FList.nil)) "npz" true =
      .ok [] ∧
    extract_binding_info (some (FList.cons (FTree.file "x") FList.nil)) true none =
      [AdapterEffect.importExternal] :=
  ⟨(C10_vacuous_guard (FList.cons (FTree.file "x") FList.nil) (by decide)).1
      "binding.npz",
   (C10_vacuous_guard (FList.cons (FTree.file "x") FList.nil) (by decide)).2.2.1,
   (C10_vacuous_guard (FList.cons (FTree.file "x") FList.nil) (by decide)).2.2.2.2.1
      none⟩

end Vnegnn
